import Mathlib

/-!
# Event-cert: Merkle allowlist and campaign admission, shallowly embedded

A shallow embedding of the core of the `event-cert` repository:

* the off-chain Merkle tree builder (`backend/scripts/generateMerkle.js`,
  built on `merkletreejs` with `sortPairs: true`), and
* the on-chain `EventCertificate` contract
  (`smart-contract/src/EventCertificate.sol`), including its use of
  OpenZeppelin's `MerkleProof.verify`, `Pausable` and the soulbound
  `_update` override.

Hashes are modelled abstractly: `keccak256` is a parameter
`k : List Nat → Nat` mapping byte strings (lists of byte values) to hash
values, so every statement about hashing is relative to an arbitrary — or,
where needed, collision-free — hash function.  All machine words (`uint256`,
`address`, `bytes32`) are modelled as `Nat`; the contract's arithmetic never
overflows on the paths modelled here (each `+ 1` is either `unchecked` on a
monotone counter that cannot physically reach `2 ^ 256` increments, or
guarded by a bound), so counters are unbounded naturals.
-/

namespace EventCert

/-- Big-endian byte string of width `w` for the value `n` (the low `w` bytes
of `n`). -/
def bytesBE (w n : Nat) : List Nat :=
  (List.range w).map (fun i => n / 256 ^ (w - 1 - i) % 256)

/-- `abi.encode(["address"], [a])`: the 20-byte account value left-padded to
32 bytes, as the builder's `generateMerkleLeaves` encodes an address
(`ethers.AbiCoder.defaultAbiCoder().encode(["address"], [addr])`). -/
def abiEncodeAddress (a : Nat) : List Nat := bytesBE 32 (a % 2 ^ 160)

/-- `abi.encodePacked(a)` for an `address`: the bare 20-byte big-endian
account value, as hashed by the contract (`keccak256(abi.encodePacked(attendee))`). -/
def packedEncodeAddress (a : Nat) : List Nat := bytesBE 20 (a % 2 ^ 160)

/-- The leaf the builder computes for an address:
`ethers.keccak256(abi.encode(["address"], [addr]))`
(`generateMerkleLeaves` in `generateMerkle.js`). -/
def builderLeaf (k : List Nat → Nat) (a : Nat) : Nat := k (abiEncodeAddress a)

/-- The leaf the contract computes in `mint`:
`keccak256(abi.encodePacked(attendee))` (EventCertificate.sol line 109). -/
def mintLeaf (k : List Nat → Nat) (a : Nat) : Nat := k (packedEncodeAddress a)

/-- Sorted-pair hash of two 32-byte hashes: OpenZeppelin's
`_hashPair(a, b) = a < b ? keccak256(a ‖ b) : keccak256(b ‖ a)`, which is
also what `merkletreejs` does with `sortPairs: true` (byte-lexicographic
comparison of 32-byte buffers coincides with `Nat` comparison). -/
def hashPair (k : List Nat → Nat) (a b : Nat) : Nat :=
  if a < b then k (bytesBE 32 a ++ bytesBE 32 b) else k (bytesBE 32 b ++ bytesBE 32 a)

/-- OpenZeppelin `MerkleProof.processProof`: fold the sorted-pair hash over
the proof, starting from the leaf. -/
def processProof (k : List Nat → Nat) (proof : List Nat) (leaf : Nat) : Nat :=
  proof.foldl (hashPair k) leaf

/-- OpenZeppelin `MerkleProof.verify(proof, root, leaf)`:
`processProof(proof, leaf) == root`. -/
def merkleVerify (k : List Nat → Nat) (proof : List Nat) (root leaf : Nat) : Bool :=
  processProof k proof leaf == root

/-- One level of `merkletreejs` tree construction with `sortPairs: true` and
default odd-node handling: adjacent elements are pair-hashed, an unpaired
final element is carried to the next level unchanged. -/
def buildLevel (k : List Nat → Nat) : List Nat → List Nat
  | a :: b :: rest => hashPair k a b :: buildLevel k rest
  | l => l

/-- The layers of the tree, bottom (the leaves) first.  `fuel` bounds the
number of levels; since each level with at least two nodes strictly shrinks,
`fuel = leaves.length` always suffices (see `merkleLayers`). -/
def buildLayers (k : List Nat → Nat) : Nat → List Nat → List (List Nat)
  | 0, layer => [layer]
  | fuel + 1, layer =>
    if layer.length ≤ 1 then [layer]
    else layer :: buildLayers k fuel (buildLevel k layer)

/-- All layers of the `merkletreejs` tree built from `leaves`. -/
def merkleLayers (k : List Nat → Nat) (leaves : List Nat) : List (List Nat) :=
  buildLayers k leaves.length leaves

/-- The root `merkletreejs` reports: the single node of the topmost layer. -/
def merkleRootOf (k : List Nat → Nat) (leaves : List Nat) : Nat :=
  (((merkleLayers k leaves).getLast?).getD []).headD 0

/-- `merkletreejs.getProof`, walking the layers: at each layer take the
sibling `idx XOR 1` when it exists, then move to `idx / 2`. -/
def proofFromLayers (k : List Nat → Nat) : List (List Nat) → Nat → List Nat
  | [], _ => []
  | layer :: rest, idx =>
    let pairIdx := if idx % 2 = 0 then idx + 1 else idx - 1
    (if pairIdx < layer.length then [layer.getD pairIdx 0] else []) ++
      proofFromLayers k rest (idx / 2)

/-- The proof the builder emits for the leaf at position `idx`. -/
def merkleProofOf (k : List Nat → Nat) (leaves : List Nat) (idx : Nat) : List Nat :=
  proofFromLayers k (merkleLayers k leaves) idx

/-- `generateMerkleLeaves(addresses)` of `generateMerkle.js`: one
ABI-padded-keccak leaf per address. -/
def generateMerkleLeaves (k : List Nat → Nat) (addrs : List Nat) : List Nat :=
  addrs.map (builderLeaf k)

/-- A cheap stand-in hash used to instantiate theorems that hold for every
hash function: the length of the input byte string. -/
def lenHash : List Nat → Nat := List.length

/-! ## The `EventCertificate` contract -/

/-- `MAX_PROOF_DEPTH = 500` (EventCertificate.sol line 37). -/
def MAX_PROOF_DEPTH : Nat := 500

/-- `MAX_CAMPAIGN_DURATION = 365 days` in seconds (line 38). -/
def MAX_CAMPAIGN_DURATION : Nat := 365 * 86400

/-- The `MintingCampaign` struct (lines 42–48).  A `mapping` slot never
written holds the all-zero struct. -/
structure MintingCampaign where
  merkleRoot : Nat
  startTime : Nat
  endTime : Nat
  maxMints : Nat
  isActive : Bool
deriving DecidableEq, Repr

/-- The all-zero struct a never-written `campaigns[id]` slot holds. -/
def emptyCampaign : MintingCampaign := ⟨0, 0, 0, 0, false⟩

/-- The contract's custom errors (lines 16–34), the OpenZeppelin errors the
inherited code can raise on the modelled paths (`EnforcedPause`,
`ExpectedPause`, `OwnableUnauthorizedAccount`), and the ERC721 soulbound
override's `NonTransferable`. -/
inductive CError where
  | NotAuthorizedRelayer
  | AlreadyMinted
  | InvalidProof
  | NonTransferable
  | NonExistentToken
  | ZeroAddress
  | CampaignNotActive
  | CampaignDoesNotExist
  | InvalidCampaignTimes
  | CampaignMustStartInFuture
  | EmptyMerkleRoot
  | MintingWindowNotOpen
  | ProofTooLong
  | InvalidInput
  | CannotModifyStartedCampaign
  | MintLimitReached
  | CampaignDurationTooLong
  | CampaignExpired
  | CampaignHasMints
  | EnforcedPause
  | ExpectedPause
  | OwnableUnauthorizedAccount
deriving DecidableEq, Repr

/-- Point update of a map modelled as a function. -/
def upd {α : Type} (f : Nat → α) (i : Nat) (v : α) : Nat → α :=
  fun j => if j = i then v else f j

/-- Point update of a doubly-keyed map. -/
def upd2 {α : Type} (f : Nat → Nat → α) (i j : Nat) (v : α) : Nat → Nat → α :=
  fun i' j' => if i' = i ∧ j' = j then v else f i' j'

/-- The contract's storage (lines 50–58) together with the inherited state
the modelled paths touch: the `Ownable` owner, the `Pausable` flag and the
ERC721 owner-of-token map (`address(0)` = no such token).  Addresses,
ids and timestamps are `Nat`. -/
structure ContractState where
  owner : Nat
  relayer : Nat
  paused : Bool
  campaigns : Nat → MintingCampaign
  hasMintedInCampaign : Nat → Nat → Bool
  campaignMintCount : Nat → Nat
  tokenToCampaignId : Nat → Nat
  campaignBaseURI : Nat → String
  ownerOf : Nat → Nat
  nextTokenId : Nat
  nextCampaignId : Nat

/-- The state the constructor (lines 76–86) leaves: both counters at 1,
nothing paused, no campaign, no token.  The constructor itself requires a
non-empty name and symbol (not modelled — they are never read again on the
modelled paths) and a non-zero relayer. -/
def initialState (deployer relayer_ : Nat) : ContractState where
  owner := deployer
  relayer := relayer_
  paused := false
  campaigns := fun _ => emptyCampaign
  hasMintedInCampaign := fun _ _ => false
  campaignMintCount := fun _ => 0
  tokenToCampaignId := fun _ => 0
  campaignBaseURI := fun _ => ""
  ownerOf := fun _ => 0
  nextTokenId := 1
  nextCampaignId := 1

/-- The soulbound `_update` override (lines 300–306): any ownership change
whose old and new owner are both non-zero reverts `NonTransferable`;
otherwise the inherited update records the new owner and returns the old
one. -/
def updateOwnership (s : ContractState) (newOwner tokenId : Nat) :
    Except CError (Nat × ContractState) :=
  if s.ownerOf tokenId ≠ 0 ∧ newOwner ≠ 0 then .error .NonTransferable
  else .ok (s.ownerOf tokenId, { s with ownerOf := upd s.ownerOf tokenId newOwner })

/-- The storage commit of a successful `mint` (lines 114–124): mark the
attendee claimed, bump the campaign's count, record the token's campaign and
owner, advance the token counter. -/
def mintSuccessState (s : ContractState) (attendee campaignId : Nat) : ContractState :=
  { s with
    hasMintedInCampaign := upd2 s.hasMintedInCampaign campaignId attendee true
    campaignMintCount :=
      upd s.campaignMintCount campaignId (s.campaignMintCount campaignId + 1)
    tokenToCampaignId := upd s.tokenToCampaignId s.nextTokenId campaignId
    ownerOf := upd s.ownerOf s.nextTokenId attendee
    nextTokenId := s.nextTokenId + 1 }

/-- `mint` (lines 94–125).  The `whenNotPaused` modifier runs first; the
trailing `_safeMint(attendee, tokenId)` is inlined: with `attendee ≠ 0`
already checked, its `_update` reverts `NonTransferable` exactly when the
token slot is occupied, and otherwise records `attendee` as owner (the
`ERC721InvalidSender` re-check in `_mint` can then no longer fire).  The
`unchecked` increment of `_nextTokenId` is modelled as an unbounded `Nat`
increment. -/
def mint (k : List Nat → Nat) (s : ContractState)
    (sender now attendee campaignId : Nat) (merkleProof : List Nat) :
    Except CError ContractState :=
  if s.paused then .error .EnforcedPause
  else if attendee = 0 then .error .ZeroAddress
  else if sender ≠ s.relayer then .error .NotAuthorizedRelayer
  else if MAX_PROOF_DEPTH < merkleProof.length then .error .ProofTooLong
  else if (s.campaigns campaignId).merkleRoot = 0 then .error .CampaignDoesNotExist
  else if ¬(s.campaigns campaignId).isActive then .error .CampaignNotActive
  else if now < (s.campaigns campaignId).startTime ∨ (s.campaigns campaignId).endTime < now then
    .error .MintingWindowNotOpen
  else if s.hasMintedInCampaign campaignId attendee then .error .AlreadyMinted
  else if (s.campaigns campaignId).maxMints ≤ s.campaignMintCount campaignId then
    .error .MintLimitReached
  else if ¬merkleVerify k merkleProof (s.campaigns campaignId).merkleRoot (mintLeaf k attendee) then
    .error .InvalidProof
  else if s.ownerOf s.nextTokenId ≠ 0 then .error .NonTransferable
  else .ok (mintSuccessState s attendee campaignId)

/-- `createCampaign` (lines 134–162), `onlyOwner`.  `bytes(baseURI_).length
== 0` is the empty string; `endTime - startTime` is checked only after
`startTime < endTime`, so `Nat` subtraction agrees with `uint256`.  The
`unchecked` increment of `_nextCampaignId` is modelled as an unbounded `Nat`
increment. -/
def createCampaign (s : ContractState) (sender now : Nat)
    (merkleRoot startTime endTime maxMints : Nat) (baseURI : String) :
    Except CError ContractState :=
  if sender ≠ s.owner then .error .OwnableUnauthorizedAccount
  else if baseURI = "" then .error .InvalidInput
  else if startTime < now then .error .CampaignMustStartInFuture
  else if endTime ≤ startTime then .error .InvalidCampaignTimes
  else if MAX_CAMPAIGN_DURATION < endTime - startTime then .error .CampaignDurationTooLong
  else if merkleRoot = 0 then .error .EmptyMerkleRoot
  else
    .ok { s with
      campaigns := upd s.campaigns s.nextCampaignId
        ⟨merkleRoot, startTime, endTime, maxMints, false⟩
      campaignBaseURI := upd s.campaignBaseURI s.nextCampaignId baseURI
      nextCampaignId := s.nextCampaignId + 1 }

/-- `updateCampaignBeforeStart` (lines 169–189), `onlyOwner`. -/
def updateCampaignBeforeStart (s : ContractState) (sender now : Nat)
    (campaignId newMerkleRoot newStartTime newEndTime : Nat) :
    Except CError ContractState :=
  if sender ≠ s.owner then .error .OwnableUnauthorizedAccount
  else if (s.campaigns campaignId).merkleRoot = 0 then .error .CampaignDoesNotExist
  else if (s.campaigns campaignId).startTime ≤ now then .error .CannotModifyStartedCampaign
  else if newStartTime < now then .error .CampaignMustStartInFuture
  else if newEndTime ≤ newStartTime then .error .InvalidCampaignTimes
  else if MAX_CAMPAIGN_DURATION < newEndTime - newStartTime then .error .CampaignDurationTooLong
  else if newMerkleRoot = 0 then .error .EmptyMerkleRoot
  else
    .ok { s with
      campaigns := upd s.campaigns campaignId
        { s.campaigns campaignId with
          merkleRoot := newMerkleRoot
          startTime := newStartTime
          endTime := newEndTime } }

/-- `deleteCampaign` (lines 194–203), `onlyOwner`.  `delete campaigns[id]`
zeroes the struct; `campaignBaseURI` and `campaignMintCount` are not
touched. -/
def deleteCampaign (s : ContractState) (sender now campaignId : Nat) :
    Except CError ContractState :=
  if sender ≠ s.owner then .error .OwnableUnauthorizedAccount
  else if (s.campaigns campaignId).merkleRoot = 0 then .error .CampaignDoesNotExist
  else if (s.campaigns campaignId).isActive then .error .CampaignNotActive
  else if (s.campaigns campaignId).startTime ≤ now then .error .CannotModifyStartedCampaign
  else if 0 < s.campaignMintCount campaignId then .error .CampaignHasMints
  else .ok { s with campaigns := upd s.campaigns campaignId emptyCampaign }

/-- `setCampaignActiveStatus` (lines 208–219), `onlyOwner`.  The
before-start check is commented out in the source; only expiry is checked,
and only when activating. -/
def setCampaignActiveStatus (s : ContractState) (sender now campaignId : Nat)
    (isActive : Bool) : Except CError ContractState :=
  if sender ≠ s.owner then .error .OwnableUnauthorizedAccount
  else if (s.campaigns campaignId).merkleRoot = 0 then .error .CampaignDoesNotExist
  else if isActive ∧ (s.campaigns campaignId).endTime < now then .error .CampaignExpired
  else
    .ok { s with
      campaigns := upd s.campaigns campaignId
        { s.campaigns campaignId with isActive := isActive } }

/-- The storage effect of a successful `burn` (lines 230–242): conditionally
clear the claimed flag, conditionally decrement the campaign's count, clear
the token's campaign and — via `_burn`'s `_update(address(0), tokenId,
address(0))`, which cannot hit the soulbound revert (the new owner is zero)
nor the `ERC721NonexistentToken` re-check (the old owner was checked
non-zero) — clear the owner slot.  The two conditional writes touch
disjoint fields, so they are recorded field by field. -/
def burnSuccessState (s : ContractState) (tokenId : Nat) : ContractState :=
  { s with
    hasMintedInCampaign :=
      if s.hasMintedInCampaign (s.tokenToCampaignId tokenId) (s.ownerOf tokenId) then
        upd2 s.hasMintedInCampaign (s.tokenToCampaignId tokenId) (s.ownerOf tokenId) false
      else s.hasMintedInCampaign
    campaignMintCount :=
      if 0 < s.campaignMintCount (s.tokenToCampaignId tokenId) then
        upd s.campaignMintCount (s.tokenToCampaignId tokenId)
          (s.campaignMintCount (s.tokenToCampaignId tokenId) - 1)
      else s.campaignMintCount
    tokenToCampaignId := upd s.tokenToCampaignId tokenId 0
    ownerOf := upd s.ownerOf tokenId 0 }

/-- `burn` (lines 223–243), `onlyOwner`. -/
def burn (s : ContractState) (sender tokenId : Nat) : Except CError ContractState :=
  if sender ≠ s.owner then .error .OwnableUnauthorizedAccount
  else if s.ownerOf tokenId = 0 then .error .NonExistentToken
  else if s.tokenToCampaignId tokenId = 0 then .error .NonExistentToken
  else .ok (burnSuccessState s tokenId)

/-- `pause` (lines 246–248), `onlyOwner`; `_pause` carries `whenNotPaused`. -/
def pause (s : ContractState) (sender : Nat) : Except CError ContractState :=
  if sender ≠ s.owner then .error .OwnableUnauthorizedAccount
  else if s.paused then .error .EnforcedPause
  else .ok { s with paused := true }

/-- `unpause` (lines 251–253), `onlyOwner`; `_unpause` carries `whenPaused`. -/
def unpause (s : ContractState) (sender : Nat) : Except CError ContractState :=
  if sender ≠ s.owner then .error .OwnableUnauthorizedAccount
  else if ¬s.paused then .error .ExpectedPause
  else .ok { s with paused := false }

/-- `updateRelayer` (lines 257–261), `onlyOwner`. -/
def updateRelayer (s : ContractState) (sender newRelayer : Nat) :
    Except CError ContractState :=
  if sender ≠ s.owner then .error .OwnableUnauthorizedAccount
  else if newRelayer = 0 then .error .ZeroAddress
  else .ok { s with relayer := newRelayer }

/-- `updateCampaignBaseURI` (lines 267–274), `onlyOwner`. -/
def updateCampaignBaseURI (s : ContractState) (sender campaignId : Nat)
    (newBaseURI : String) : Except CError ContractState :=
  if sender ≠ s.owner then .error .OwnableUnauthorizedAccount
  else if (s.campaigns campaignId).merkleRoot = 0 then .error .CampaignDoesNotExist
  else if newBaseURI = "" then .error .InvalidInput
  else .ok { s with campaignBaseURI := upd s.campaignBaseURI campaignId newBaseURI }

/-- `canMint` (lines 289–296): the read-only pre-flight check.  It never
reads the pause flag. -/
def canMint (s : ContractState) (now attendee campaignId : Nat) : Bool :=
  if ¬(s.campaigns campaignId).isActive ∨ (s.campaigns campaignId).merkleRoot = 0 then false
  else if now < (s.campaigns campaignId).startTime ∨ (s.campaigns campaignId).endTime < now then
    false
  else if s.hasMintedInCampaign campaignId attendee then false
  else if (s.campaigns campaignId).maxMints ≤ s.campaignMintCount campaignId then false
  else true

/-- The lookup character of `_toAsciiString`'s alphabet
`"0123456789abcdef"` at index `n < 16`. -/
def hexDigit (n : Nat) : Char :=
  if n < 10 then Char.ofNat (48 + n) else Char.ofNat (87 + n)

/-- The 40 hex characters `_toAsciiString` (lines 327–354) produces: for each
of the 20 address bytes, the high then the low nibble. -/
def addressHexChars (a : Nat) : List Char :=
  ((List.range 20).map (fun i =>
    [hexDigit (a % 2 ^ 160 / 256 ^ (19 - i) % 256 / 16),
     hexDigit (a % 2 ^ 160 / 256 ^ (19 - i) % 256 % 16)])).flatten

/-- `_toAsciiString(x)`: `"0x"` followed by the 40 lowercase hex characters
of the 20-byte address. -/
def toAsciiString (a : Nat) : String :=
  "0x" ++ String.mk (addressHexChars a)

/-- `tokenURI` (lines 311–324). -/
def tokenURI (s : ContractState) (tokenId : Nat) : Except CError String :=
  if s.ownerOf tokenId = 0 then .error .NonExistentToken
  else if s.campaignBaseURI (s.tokenToCampaignId tokenId) = "" then .error .NonExistentToken
  else
    .ok (s.campaignBaseURI (s.tokenToCampaignId tokenId) ++
      toAsciiString (s.ownerOf tokenId) ++ ".json")

/-! ## The contract as a transition system -/

/-- One external call to a state-changing entry point of the contract.  The
caller and the block timestamp are supplied by `step`. -/
inductive Op where
  | mint (attendee campaignId : Nat) (merkleProof : List Nat)
  | createCampaign (merkleRoot startTime endTime maxMints : Nat) (baseURI : String)
  | updateCampaignBeforeStart (campaignId newMerkleRoot newStartTime newEndTime : Nat)
  | deleteCampaign (campaignId : Nat)
  | setCampaignActiveStatus (campaignId : Nat) (isActive : Bool)
  | burn (tokenId : Nat)
  | pause
  | unpause
  | updateRelayer (newRelayer : Nat)
  | updateCampaignBaseURI (campaignId : Nat) (newBaseURI : String)

/-- Execute one external call `op` from `sender` at block timestamp `now`. -/
def step (k : List Nat → Nat) (s : ContractState) (sender now : Nat) :
    Op → Except CError ContractState
  | .mint a cid pf => mint k s sender now a cid pf
  | .createCampaign r st en mx uri => createCampaign s sender now r st en mx uri
  | .updateCampaignBeforeStart cid r st en => updateCampaignBeforeStart s sender now cid r st en
  | .deleteCampaign cid => deleteCampaign s sender now cid
  | .setCampaignActiveStatus cid b => setCampaignActiveStatus s sender now cid b
  | .burn t => burn s sender t
  | .pause => pause s sender
  | .unpause => unpause s sender
  | .updateRelayer r => updateRelayer s sender r
  | .updateCampaignBaseURI cid uri => updateCampaignBaseURI s sender cid uri

/-- The states the deployed contract can reach: the constructor's state
(with a non-zero relayer, as the constructor requires), closed under
successful external calls. -/
inductive Reachable (k : List Nat → Nat) : ContractState → Prop where
  | init (deployer relayer_ : Nat) (h : relayer_ ≠ 0) :
      Reachable k (initialState deployer relayer_)
  | step {s s' : ContractState} (sender now : Nat) (op : Op) :
      Reachable k s → step k s sender now op = .ok s' → Reachable k s'

/-- The state invariant the reachability proofs maintain: every campaign's
mint count is within its cap, and every campaign slot at or past
`nextCampaignId` is still untouched. -/
def Inv (s : ContractState) : Prop :=
  (∀ cid, s.campaignMintCount cid ≤ (s.campaigns cid).maxMints) ∧
  (∀ cid, s.nextCampaignId ≤ cid →
    s.campaigns cid = emptyCampaign ∧ s.campaignMintCount cid = 0)

/-! ## Concrete scenario states

Small concrete states used to instantiate the theorems.  They are produced
by running the contract's own entry points (with the `lenHash` stand-in
hash), starting from a fresh deployment with owner `9` and relayer `7`. -/

/-- The new state of a successful call, or `s` if the call failed. -/
def okOr (s : ContractState) : Except CError ContractState → ContractState
  | .ok s' => s'
  | .error _ => s

/-- After `createCampaign(root = 20, start = 5, end = 10, maxMints = 3, "u")`
at time 0.  (With `lenHash`, root 20 is exactly the leaf hash of any single
address, so the one-address allowlist `[proof = []]` verifies.) -/
def demoCreated : ContractState :=
  okOr (initialState 9 7) (createCampaign (initialState 9 7) 9 0 20 5 10 3 "u")

/-- … then activated. -/
def demoActive : ContractState :=
  okOr demoCreated (setCampaignActiveStatus demoCreated 9 0 1 true)

/-- … then attendee `3` mints in campaign 1 at time 5 (token 1). -/
def mintedState : ContractState :=
  okOr demoActive (mint lenHash demoActive 7 5 3 1 [])

/-- … then the owner pauses (before any mint): a paused state whose
campaign 1 is live. -/
def pausedState : ContractState :=
  okOr demoActive (pause demoActive 9)

/-- A campaign created with `maxMints = 0` at time 0 … -/
def capCreated : ContractState :=
  okOr (initialState 9 7) (createCampaign (initialState 9 7) 9 0 20 5 10 0 "u")

/-- … and activated: its capacity is already exhausted. -/
def capState : ContractState :=
  okOr capCreated (setCampaignActiveStatus capCreated 9 0 1 true)

/-! ## Basic lemmas -/

theorem upd_same {α : Type} (f : Nat → α) (i : Nat) (v : α) : upd f i v i = v := by
  simp [upd]

theorem upd_ne {α : Type} (f : Nat → α) (i : Nat) (v : α) {j : Nat} (h : j ≠ i) :
    upd f i v j = f j := by
  simp [upd, h]

theorem upd2_same {α : Type} (f : Nat → Nat → α) (i j : Nat) (v : α) :
    upd2 f i j v i j = v := by
  simp [upd2]

/-- **C1.** The leaf-hashing used at tree-build time does NOT equal the
leaf-hashing used at verification time: the builder hashes the 32-byte
ABI-padded address, the contract hashes the 20-byte packed address.  The two
encodings differ for every address (they do not even have the same length),
and consequently — for any hash function that does not collide on the two
encodings, as a cryptographic hash does not — the root and (empty) proof the
builder emits for a one-address allowlist fail the contract-side
verification: `verify(leaf(identity), proof, root) = false`, refuting the
round-trip property. -/
theorem c1_builder_verifier_leaf_mismatch (k : List Nat → Nat) (a : Nat)
    (hk : k (abiEncodeAddress a) ≠ k (packedEncodeAddress a)) :
    abiEncodeAddress a ≠ packedEncodeAddress a ∧
    merkleVerify k (merkleProofOf k (generateMerkleLeaves k [a]) 0)
      (merkleRootOf k (generateMerkleLeaves k [a])) (mintLeaf k a) = false := by
  constructor
  · intro h
    have hlen := congrArg List.length h
    simp [abiEncodeAddress, packedEncodeAddress, bytesBE] at hlen
  · have hproof : merkleProofOf k (generateMerkleLeaves k [a]) 0 = [] := rfl
    have hroot : merkleRootOf k (generateMerkleLeaves k [a]) = k (abiEncodeAddress a) := rfl
    rw [hproof, hroot]
    simp only [merkleVerify, processProof, List.foldl_nil, mintLeaf,
      beq_eq_false_iff_ne, ne_eq]
    exact fun h => hk h.symm

/-- **C1 witness.** The mismatch at the concrete address `1`, with the
(injective-on-these-inputs) stand-in hash `lenHash`. -/
theorem c1_builder_verifier_leaf_mismatch_witness :
    abiEncodeAddress 1 ≠ packedEncodeAddress 1 ∧
    merkleVerify lenHash (merkleProofOf lenHash (generateMerkleLeaves lenHash [1]) 0)
      (merkleRootOf lenHash (generateMerkleLeaves lenHash [1])) (mintLeaf lenHash 1) = false :=
  c1_builder_verifier_leaf_mismatch lenHash 1 (by decide)

/-- **C7.** An ownership update fails with `NonTransferable` if and only if
it is neither an issuance (old owner zero) nor a revocation (new owner
zero); every update with a zero old or new owner goes through and records
the new owner. -/
theorem c7_soulbound_update (s : ContractState) (newOwner tokenId : Nat) :
    (updateOwnership s newOwner tokenId = .error .NonTransferable ↔
      (s.ownerOf tokenId ≠ 0 ∧ newOwner ≠ 0)) ∧
    (s.ownerOf tokenId = 0 ∨ newOwner = 0 →
      updateOwnership s newOwner tokenId =
        .ok (s.ownerOf tokenId, { s with ownerOf := upd s.ownerOf tokenId newOwner })) := by
  unfold updateOwnership
  constructor
  · split_ifs with h
    · simp [h]
    · simp [h]
  · intro h
    have hn : ¬(s.ownerOf tokenId ≠ 0 ∧ newOwner ≠ 0) := by tauto
    rw [if_neg hn]

/-- **C10.** While paused, every `mint` call reverts (`EnforcedPause`)
regardless of its arguments, but `canMint` never reads the pause flag: in
the concrete reachable paused state `pausedState`, `canMint` answers `true`
for attendee 3 in campaign 1 while `mint` on the same input reverts. -/
theorem c10_canmint_ignores_pause (k : List Nat → Nat) (s : ContractState)
    (sender now attendee campaignId : Nat) (merkleProof : List Nat)
    (hp : s.paused = true) :
    mint k s sender now attendee campaignId merkleProof = .error .EnforcedPause ∧
    (pausedState.paused = true ∧ canMint pausedState 5 3 1 = true ∧
      mint lenHash pausedState 7 5 3 1 [] = .error .EnforcedPause) := by
  refine ⟨?_, rfl, rfl, rfl⟩
  unfold mint
  simp [hp]

/-- **C10 witness.** The paused-state instance itself. -/
theorem c10_canmint_ignores_pause_witness :
    mint lenHash pausedState 7 5 3 1 [] = .error .EnforcedPause :=
  (c10_canmint_ignores_pause lenHash pausedState 7 5 3 1 [] rfl).1

/-- **C5 counterexample.** `createCampaign` does NOT reject every
`startTime ≤ now`: at time `now = 100` a campaign with `startTime = 100`
(not strictly in the future) is accepted.  The code only rejects
`startTime < block.timestamp`. -/
theorem c5_counterexample_start_now_accepted :
    createCampaign (initialState 9 7) 9 100 20 100 200 3 "u" =
      .ok { initialState 9 7 with
        campaigns := upd (initialState 9 7).campaigns 1 ⟨20, 100, 200, 3, false⟩
        campaignBaseURI := upd (initialState 9 7).campaignBaseURI 1 "u"
        nextCampaignId := 2 } := by
  rfl

/-- **C5 (amended).** When called by the owner, `createCampaign` rejects an
empty metadata locator (`InvalidInput`), a start time in the past —
`startTime < now`, while `startTime = now` is accepted —
(`CampaignMustStartInFuture`), `startTime ≥ endTime`
(`InvalidCampaignTimes`), a duration over the maximum
(`CampaignDurationTooLong`) and a zero Merkle root (`EmptyMerkleRoot`), in
that evaluation order; every campaign it accepts is stored inactive. -/
theorem c5_create_campaign_validation (s : ContractState) (sender now : Nat)
    (root st en mx : Nat) (uri : String) (hs : sender = s.owner) :
    (createCampaign s sender now root st en mx uri = .error .InvalidInput ↔ uri = "") ∧
    (createCampaign s sender now root st en mx uri = .error .CampaignMustStartInFuture ↔
      uri ≠ "" ∧ st < now) ∧
    (createCampaign s sender now root st en mx uri = .error .InvalidCampaignTimes ↔
      uri ≠ "" ∧ now ≤ st ∧ en ≤ st) ∧
    (createCampaign s sender now root st en mx uri = .error .CampaignDurationTooLong ↔
      uri ≠ "" ∧ now ≤ st ∧ st < en ∧ MAX_CAMPAIGN_DURATION < en - st) ∧
    (createCampaign s sender now root st en mx uri = .error .EmptyMerkleRoot ↔
      uri ≠ "" ∧ now ≤ st ∧ st < en ∧ en - st ≤ MAX_CAMPAIGN_DURATION ∧ root = 0) ∧
    (∀ s', createCampaign s sender now root st en mx uri = .ok s' →
      s'.campaigns s.nextCampaignId = ⟨root, st, en, mx, false⟩) := by
  unfold createCampaign
  rw [if_neg (by simp [hs])]
  split_ifs with h1 h2 h3 h4 h5
  all_goals simp_all [upd_same]
  all_goals omega

/-- **C5 witness.** The empty-locator rejection at a concrete input. -/
theorem c5_create_campaign_validation_witness :
    createCampaign (initialState 9 7) 9 0 20 5 10 3 "" = .error .InvalidInput :=
  (c5_create_campaign_validation (initialState 9 7) 9 0 20 5 10 3 "" rfl).1.mpr rfl

set_option maxHeartbeats 2000000 in
/-- **C2.** When not paused (the pause gate runs before everything else),
`mint` evaluates its nine checks in exactly the claimed order,
short-circuiting on the first failure: each error is returned precisely
when all earlier checks pass and that check fails.  The contract realizes
the spec's error kinds as `ZeroAddress` (for `InvalidInput` on a zero
identity), `NotAuthorizedRelayer` (for `NotAuthorizedSubmitter`),
`AlreadyMinted` (for `AlreadyClaimed`) and `MintLimitReached` (for
`CapacityReached`). -/
theorem c2_mint_check_order (k : List Nat → Nat) (s : ContractState)
    (sender now attendee campaignId : Nat) (merkleProof : List Nat)
    (hpause : s.paused = false) :
    (mint k s sender now attendee campaignId merkleProof = .error .ZeroAddress ↔
      attendee = 0) ∧
    (mint k s sender now attendee campaignId merkleProof = .error .NotAuthorizedRelayer ↔
      attendee ≠ 0 ∧ sender ≠ s.relayer) ∧
    (mint k s sender now attendee campaignId merkleProof = .error .ProofTooLong ↔
      attendee ≠ 0 ∧ sender = s.relayer ∧ MAX_PROOF_DEPTH < merkleProof.length) ∧
    (mint k s sender now attendee campaignId merkleProof = .error .CampaignDoesNotExist ↔
      attendee ≠ 0 ∧ sender = s.relayer ∧ merkleProof.length ≤ MAX_PROOF_DEPTH ∧
      (s.campaigns campaignId).merkleRoot = 0) ∧
    (mint k s sender now attendee campaignId merkleProof = .error .CampaignNotActive ↔
      attendee ≠ 0 ∧ sender = s.relayer ∧ merkleProof.length ≤ MAX_PROOF_DEPTH ∧
      (s.campaigns campaignId).merkleRoot ≠ 0 ∧ (s.campaigns campaignId).isActive = false) ∧
    (mint k s sender now attendee campaignId merkleProof = .error .MintingWindowNotOpen ↔
      attendee ≠ 0 ∧ sender = s.relayer ∧ merkleProof.length ≤ MAX_PROOF_DEPTH ∧
      (s.campaigns campaignId).merkleRoot ≠ 0 ∧ (s.campaigns campaignId).isActive = true ∧
      (now < (s.campaigns campaignId).startTime ∨ (s.campaigns campaignId).endTime < now)) ∧
    (mint k s sender now attendee campaignId merkleProof = .error .AlreadyMinted ↔
      attendee ≠ 0 ∧ sender = s.relayer ∧ merkleProof.length ≤ MAX_PROOF_DEPTH ∧
      (s.campaigns campaignId).merkleRoot ≠ 0 ∧ (s.campaigns campaignId).isActive = true ∧
      (s.campaigns campaignId).startTime ≤ now ∧ now ≤ (s.campaigns campaignId).endTime ∧
      s.hasMintedInCampaign campaignId attendee = true) ∧
    (mint k s sender now attendee campaignId merkleProof = .error .MintLimitReached ↔
      attendee ≠ 0 ∧ sender = s.relayer ∧ merkleProof.length ≤ MAX_PROOF_DEPTH ∧
      (s.campaigns campaignId).merkleRoot ≠ 0 ∧ (s.campaigns campaignId).isActive = true ∧
      (s.campaigns campaignId).startTime ≤ now ∧ now ≤ (s.campaigns campaignId).endTime ∧
      s.hasMintedInCampaign campaignId attendee = false ∧
      (s.campaigns campaignId).maxMints ≤ s.campaignMintCount campaignId) ∧
    (mint k s sender now attendee campaignId merkleProof = .error .InvalidProof ↔
      attendee ≠ 0 ∧ sender = s.relayer ∧ merkleProof.length ≤ MAX_PROOF_DEPTH ∧
      (s.campaigns campaignId).merkleRoot ≠ 0 ∧ (s.campaigns campaignId).isActive = true ∧
      (s.campaigns campaignId).startTime ≤ now ∧ now ≤ (s.campaigns campaignId).endTime ∧
      s.hasMintedInCampaign campaignId attendee = false ∧
      s.campaignMintCount campaignId < (s.campaigns campaignId).maxMints ∧
      merkleVerify k merkleProof (s.campaigns campaignId).merkleRoot (mintLeaf k attendee)
        = false) := by
  unfold mint
  rw [if_neg (by simp [hpause])]
  split_ifs with h1 h2 h3 h4 h5 h6 h7 h8 h9 h10
  all_goals refine ⟨?_, ?_, ?_, ?_, ?_, ?_, ?_, ?_, ?_⟩
  all_goals simp_all [not_lt, not_le]
  all_goals omega

/-- **C2 witness.** The first check at a concrete input: a zero identity is
rejected with the zero-identity error. -/
theorem c2_mint_check_order_witness :
    mint lenHash (initialState 9 7) 7 0 0 1 [] = .error .ZeroAddress :=
  (c2_mint_check_order lenHash (initialState 9 7) 7 0 0 1 [] rfl).1.mpr rfl

/-! ## Inversion lemmas: what a successful call tells us -/

set_option maxHeartbeats 1000000 in
theorem mint_ok_iff (k : List Nat → Nat) (s : ContractState)
    (sender now attendee campaignId : Nat) (merkleProof : List Nat) (s' : ContractState) :
    mint k s sender now attendee campaignId merkleProof = .ok s' ↔
      (s.paused = false ∧ attendee ≠ 0 ∧ sender = s.relayer ∧
       merkleProof.length ≤ MAX_PROOF_DEPTH ∧
       (s.campaigns campaignId).merkleRoot ≠ 0 ∧
       (s.campaigns campaignId).isActive = true ∧
       (s.campaigns campaignId).startTime ≤ now ∧ now ≤ (s.campaigns campaignId).endTime ∧
       s.hasMintedInCampaign campaignId attendee = false ∧
       s.campaignMintCount campaignId < (s.campaigns campaignId).maxMints ∧
       merkleVerify k merkleProof (s.campaigns campaignId).merkleRoot (mintLeaf k attendee)
         = true ∧
       s.ownerOf s.nextTokenId = 0 ∧
       s' = mintSuccessState s attendee campaignId) := by
  unfold mint
  split_ifs with h0 h1 h2 h3 h4 h5 h6 h7 h8 h9 h10
  all_goals simp_all [not_lt, not_le]
  all_goals try omega
  all_goals exact eq_comm

theorem createCampaign_ok {s s' : ContractState} {sender now r st en mx : Nat} {uri : String}
    (h : createCampaign s sender now r st en mx uri = .ok s') :
    r ≠ 0 ∧
    s' = { s with
      campaigns := upd s.campaigns s.nextCampaignId ⟨r, st, en, mx, false⟩
      campaignBaseURI := upd s.campaignBaseURI s.nextCampaignId uri
      nextCampaignId := s.nextCampaignId + 1 } := by
  unfold createCampaign at h
  split_ifs at h with h1 h2 h3 h4 h5 h6
  simp_all

theorem updateCampaignBeforeStart_ok {s s' : ContractState}
    {sender now campaignId r st en : Nat}
    (h : updateCampaignBeforeStart s sender now campaignId r st en = .ok s') :
    (s.campaigns campaignId).merkleRoot ≠ 0 ∧ now < (s.campaigns campaignId).startTime ∧
    s' = { s with
      campaigns := upd s.campaigns campaignId
        { s.campaigns campaignId with merkleRoot := r, startTime := st, endTime := en } } := by
  unfold updateCampaignBeforeStart at h
  split_ifs at h with h1 h2 h3 h4 h5 h6 h7
  simp_all [not_le]

theorem deleteCampaign_ok {s s' : ContractState} {sender now campaignId : Nat}
    (h : deleteCampaign s sender now campaignId = .ok s') :
    (s.campaigns campaignId).merkleRoot ≠ 0 ∧ now < (s.campaigns campaignId).startTime ∧
    s.campaignMintCount campaignId = 0 ∧
    s' = { s with campaigns := upd s.campaigns campaignId emptyCampaign } := by
  unfold deleteCampaign at h
  split_ifs at h with h1 h2 h3 h4 h5
  simp_all [not_le, not_lt]

theorem setCampaignActiveStatus_ok {s s' : ContractState} {sender now campaignId : Nat}
    {isActive : Bool}
    (h : setCampaignActiveStatus s sender now campaignId isActive = .ok s') :
    (s.campaigns campaignId).merkleRoot ≠ 0 ∧
    s' = { s with
      campaigns := upd s.campaigns campaignId
        { s.campaigns campaignId with isActive := isActive } } := by
  unfold setCampaignActiveStatus at h
  split_ifs at h with h1 h2 h3
  simp_all

theorem pause_ok {s s' : ContractState} {sender : Nat}
    (h : pause s sender = .ok s') : s' = { s with paused := true } := by
  unfold pause at h
  split_ifs at h
  simp_all

theorem unpause_ok {s s' : ContractState} {sender : Nat}
    (h : unpause s sender = .ok s') : s' = { s with paused := false } := by
  unfold unpause at h
  split_ifs at h
  simp_all

theorem updateRelayer_ok {s s' : ContractState} {sender newRelayer : Nat}
    (h : updateRelayer s sender newRelayer = .ok s') :
    newRelayer ≠ 0 ∧ s' = { s with relayer := newRelayer } := by
  unfold updateRelayer at h
  split_ifs at h with h1 h2
  simp_all

theorem updateCampaignBaseURI_ok {s s' : ContractState} {sender campaignId : Nat}
    {uri : String}
    (h : updateCampaignBaseURI s sender campaignId uri = .ok s') :
    s' = { s with campaignBaseURI := upd s.campaignBaseURI campaignId uri } := by
  unfold updateCampaignBaseURI at h
  split_ifs at h with h1 h2 h3
  simp_all

/-- What a successful `burn` leaves, projected field by field (the two inner
conditional writes collapse to truncated subtraction and an unconditional
flag clear). -/
theorem burn_ok {s s' : ContractState} {sender tokenId : Nat}
    (h : burn s sender tokenId = .ok s') :
    sender = s.owner ∧ s.ownerOf tokenId ≠ 0 ∧ s.tokenToCampaignId tokenId ≠ 0 ∧
    s'.owner = s.owner ∧ s'.relayer = s.relayer ∧ s'.paused = s.paused ∧
    s'.campaigns = s.campaigns ∧ s'.campaignBaseURI = s.campaignBaseURI ∧
    s'.nextTokenId = s.nextTokenId ∧ s'.nextCampaignId = s.nextCampaignId ∧
    s'.hasMintedInCampaign (s.tokenToCampaignId tokenId) (s.ownerOf tokenId) = false ∧
    (∀ c a, ¬(c = s.tokenToCampaignId tokenId ∧ a = s.ownerOf tokenId) →
      s'.hasMintedInCampaign c a = s.hasMintedInCampaign c a) ∧
    s'.campaignMintCount (s.tokenToCampaignId tokenId) =
      s.campaignMintCount (s.tokenToCampaignId tokenId) - 1 ∧
    (∀ c, c ≠ s.tokenToCampaignId tokenId → s'.campaignMintCount c = s.campaignMintCount c) ∧
    s'.ownerOf tokenId = 0 ∧
    (∀ t, t ≠ tokenId → s'.ownerOf t = s.ownerOf t) ∧
    s'.tokenToCampaignId tokenId = 0 ∧
    (∀ t, t ≠ tokenId → s'.tokenToCampaignId t = s.tokenToCampaignId t) := by
  unfold burn at h
  split_ifs at h with h1 h2 h3
  all_goals simp at h
  subst h
  refine ⟨not_ne_iff.mp h1, h2, h3, rfl, rfl, rfl, rfl, rfl, rfl, rfl,
    ?_, ?_, ?_, ?_, ?_, ?_, ?_, ?_⟩
  · by_cases hf : s.hasMintedInCampaign (s.tokenToCampaignId tokenId) (s.ownerOf tokenId)
    · simp [burnSuccessState, hf, upd2]
    · simp [burnSuccessState, hf]
  · intro c a hca
    by_cases hf : s.hasMintedInCampaign (s.tokenToCampaignId tokenId) (s.ownerOf tokenId) <;>
      simp [burnSuccessState, hf, upd2, hca]
  · by_cases hc : 0 < s.campaignMintCount (s.tokenToCampaignId tokenId)
    · simp [burnSuccessState, hc, upd]
    · simp [burnSuccessState, hc]
      omega
  · intro c hc
    by_cases h0 : 0 < s.campaignMintCount (s.tokenToCampaignId tokenId) <;>
      simp [burnSuccessState, h0, upd, hc]
  · simp [burnSuccessState, upd]
  · intro t ht
    simp [burnSuccessState, upd, ht]
  · simp [burnSuccessState, upd]
  · intro t ht
    simp [burnSuccessState, upd, ht]

/-! ## The reachability invariant -/

theorem inv_step {k : List Nat → Nat} {s s' : ContractState} {sender now : Nat} {op : Op}
    (hs : Inv s) (h : step k s sender now op = .ok s') : Inv s' := by
  obtain ⟨h1, h2⟩ := hs
  cases op with
  | mint a cid pf =>
    rw [step, mint_ok_iff] at h
    obtain ⟨-, -, -, -, hroot, -, -, -, -, hcap, -, -, hs'⟩ := h
    subst hs'
    constructor
    · intro c
      by_cases hc : c = cid
      · subst hc
        simp only [mintSuccessState, upd_same]
        omega
      · simp only [mintSuccessState, upd_ne _ _ _ hc]
        exact h1 c
    · intro c hcge
      simp only [mintSuccessState] at hcge ⊢
      obtain ⟨hce, hc0⟩ := h2 c hcge
      refine ⟨hce, ?_⟩
      by_cases hc : c = cid
      · exact absurd (by rw [← hc, hce]; rfl) hroot
      · rw [upd_ne _ _ _ hc]
        exact hc0
  | createCampaign r st en mx uri =>
    rw [step] at h
    obtain ⟨hr, hs'⟩ := createCampaign_ok h
    subst hs'
    constructor
    · intro c
      by_cases hc : c = s.nextCampaignId
      · subst hc
        simp only [upd_same]
        simp [(h2 _ le_rfl).2]
      · simp only [upd_ne _ _ _ hc]
        exact h1 c
    · intro c hcge
      simp only at hcge
      have hge : s.nextCampaignId ≤ c := by omega
      have hne : c ≠ s.nextCampaignId := by omega
      simp only [upd_ne _ _ _ hne]
      exact h2 c hge
  | updateCampaignBeforeStart cid r st en =>
    rw [step] at h
    obtain ⟨hroot, -, hs'⟩ := updateCampaignBeforeStart_ok h
    subst hs'
    constructor
    · intro c
      by_cases hc : c = cid
      · subst hc
        simp only [upd_same]
        exact h1 c
      · simp only [upd_ne _ _ _ hc]
        exact h1 c
    · intro c hcge
      obtain ⟨hce, hc0⟩ := h2 c hcge
      by_cases hc : c = cid
      · exact absurd (by rw [← hc, hce]; rfl) hroot
      · simp only [upd_ne _ _ _ hc]
        exact ⟨hce, hc0⟩
  | deleteCampaign cid =>
    rw [step] at h
    obtain ⟨hroot, -, hcnt, hs'⟩ := deleteCampaign_ok h
    subst hs'
    constructor
    · intro c
      by_cases hc : c = cid
      · subst hc
        simp only [upd_same]
        simp [emptyCampaign, hcnt]
      · simp only [upd_ne _ _ _ hc]
        exact h1 c
    · intro c hcge
      obtain ⟨hce, hc0⟩ := h2 c hcge
      by_cases hc : c = cid
      · subst hc
        simp only [upd_same]
        exact ⟨by simp, hcnt⟩
      · simp only [upd_ne _ _ _ hc]
        exact ⟨hce, hc0⟩
  | setCampaignActiveStatus cid b =>
    rw [step] at h
    obtain ⟨hroot, hs'⟩ := setCampaignActiveStatus_ok h
    subst hs'
    constructor
    · intro c
      by_cases hc : c = cid
      · subst hc
        simp only [upd_same]
        exact h1 c
      · simp only [upd_ne _ _ _ hc]
        exact h1 c
    · intro c hcge
      obtain ⟨hce, hc0⟩ := h2 c hcge
      by_cases hc : c = cid
      · exact absurd (by rw [← hc, hce]; rfl) hroot
      · simp only [upd_ne _ _ _ hc]
        exact ⟨hce, hc0⟩
  | burn t =>
    rw [step] at h
    obtain ⟨-, -, -, -, -, -, hcamps, -, -, hnext, -, -, hcnt, hcnt2, -, -, -, -⟩ := burn_ok h
    constructor
    · intro c
      rw [hcamps]
      by_cases hc : c = s.tokenToCampaignId t
      · rw [hc, hcnt]
        have := h1 (s.tokenToCampaignId t)
        omega
      · rw [hcnt2 c hc]
        exact h1 c
    · intro c hcge
      rw [hnext] at hcge
      rw [hcamps]
      obtain ⟨hce, hc0⟩ := h2 c hcge
      refine ⟨hce, ?_⟩
      by_cases hc : c = s.tokenToCampaignId t
      · rw [hc, hcnt]
        rw [hc] at hc0
        omega
      · rw [hcnt2 c hc]
        exact hc0
  | pause =>
    rw [step] at h
    have hs' := pause_ok h
    subst hs'
    exact ⟨h1, h2⟩
  | unpause =>
    rw [step] at h
    have hs' := unpause_ok h
    subst hs'
    exact ⟨h1, h2⟩
  | updateRelayer r =>
    rw [step] at h
    obtain ⟨-, hs'⟩ := updateRelayer_ok h
    subst hs'
    exact ⟨h1, h2⟩
  | updateCampaignBaseURI cid uri =>
    rw [step] at h
    have hs' := updateCampaignBaseURI_ok h
    subst hs'
    exact ⟨h1, h2⟩

/-- Every reachable contract state satisfies the invariant. -/
theorem reachable_inv {k : List Nat → Nat} {s : ContractState}
    (h : Reachable k s) : Inv s := by
  induction h with
  | init d r hr =>
    exact ⟨fun cid => Nat.le_refl 0, fun cid _ => ⟨rfl, rfl⟩⟩
  | step sender now op hr heq ih =>
    exact inv_step ih heq

theorem demoCreated_reachable : Reachable lenHash demoCreated :=
  .step 9 0 (.createCampaign 20 5 10 3 "u") (.init 9 7 (by decide)) (by rfl)

theorem demoActive_reachable : Reachable lenHash demoActive :=
  .step 9 0 (.setCampaignActiveStatus 1 true) demoCreated_reachable (by rfl)

theorem mintedState_reachable : Reachable lenHash mintedState :=
  .step 7 5 (.mint 3 1 []) demoActive_reachable (by rfl)

theorem capCreated_reachable : Reachable lenHash capCreated :=
  .step 9 0 (.createCampaign 20 5 10 0 "u") (.init 9 7 (by decide)) (by rfl)

theorem capState_reachable : Reachable lenHash capState :=
  .step 9 0 (.setCampaignActiveStatus 1 true) capCreated_reachable (by rfl)

/-- **C3 counterexample.** A later claim for an already-claimed (identity,
campaign) pair does NOT always fail with the duplicate-claim error: after
attendee 3 successfully claims in campaign 1 (at time 5), the same claim
re-submitted at time 11 — past the campaign's end time 10 — fails with
`MintingWindowNotOpen`, not `AlreadyMinted` (and no revoke intervened). -/
theorem c3_counterexample_later_claim_error :
    mint lenHash demoActive 7 5 3 1 [] = .ok mintedState ∧
    mintedState.hasMintedInCampaign 1 3 = true ∧
    mint lenHash mintedState 7 11 3 1 [] = .error .MintingWindowNotOpen ∧
    mint lenHash mintedState 7 11 3 1 [] ≠ .error .AlreadyMinted := by
  refine ⟨rfl, rfl, rfl, ?_⟩
  rw [show mint lenHash mintedState 7 11 3 1 [] =
    Except.error CError.MintingWindowNotOpen from rfl]
  simp

/-- **C3 (amended).** For every identity and campaign, at most one
claim/mint ever succeeds for that pair absent an administrative revoke:
while the claimed flag is set, every further `mint` for the pair fails (no
second credential is ever issued), and fails specifically with
`AlreadyMinted` whenever the preceding checks (pause, identity,
authorization, proof length, campaign existence, activity, window) pass; a
successful `mint` sets the flag, and no operation other than the
administrative `burn` ever clears it. -/
theorem c3_single_claim_per_campaign (k : List Nat → Nat) (s : ContractState)
    (sender now attendee campaignId : Nat) (merkleProof : List Nat) :
    (s.hasMintedInCampaign campaignId attendee = true →
      ∀ s', mint k s sender now attendee campaignId merkleProof ≠ .ok s') ∧
    (∀ s', mint k s sender now attendee campaignId merkleProof = .ok s' →
      s'.hasMintedInCampaign campaignId attendee = true) ∧
    (s.paused = false → attendee ≠ 0 → sender = s.relayer →
      merkleProof.length ≤ MAX_PROOF_DEPTH → (s.campaigns campaignId).merkleRoot ≠ 0 →
      (s.campaigns campaignId).isActive = true →
      (s.campaigns campaignId).startTime ≤ now → now ≤ (s.campaigns campaignId).endTime →
      s.hasMintedInCampaign campaignId attendee = true →
      mint k s sender now attendee campaignId merkleProof = .error .AlreadyMinted) ∧
    (∀ op s', (∀ t, op ≠ Op.burn t) → step k s sender now op = .ok s' →
      s.hasMintedInCampaign campaignId attendee = true →
      s'.hasMintedInCampaign campaignId attendee = true) := by
  refine ⟨?_, ?_, ?_, ?_⟩
  · intro hm s' hok
    rw [mint_ok_iff] at hok
    have hflag := hok.2.2.2.2.2.2.2.2.1
    rw [hm] at hflag
    exact Bool.noConfusion hflag
  · intro s' hok
    rw [mint_ok_iff] at hok
    rw [hok.2.2.2.2.2.2.2.2.2.2.2.2]
    simp [mintSuccessState, upd2_same]
  · intro hp ha hr hlen hroot hact hst hen hm
    have hw : ¬(now < (s.campaigns campaignId).startTime ∨
        (s.campaigns campaignId).endTime < now) := by omega
    simp [mint, hp, ha, hr, not_lt.mpr hlen, hroot, hact, hw, hm]
  · intro op s' hnb hok hm
    cases op with
    | mint a cid pf =>
      rw [step, mint_ok_iff] at hok
      rw [hok.2.2.2.2.2.2.2.2.2.2.2.2]
      simp only [mintSuccessState, upd2]
      split
      · rfl
      · exact hm
    | createCampaign r st en mx uri =>
      rw [step] at hok
      rw [(createCampaign_ok hok).2]
      exact hm
    | updateCampaignBeforeStart cid r st en =>
      rw [step] at hok
      rw [(updateCampaignBeforeStart_ok hok).2.2]
      exact hm
    | deleteCampaign cid =>
      rw [step] at hok
      rw [(deleteCampaign_ok hok).2.2.2]
      exact hm
    | setCampaignActiveStatus cid b =>
      rw [step] at hok
      rw [(setCampaignActiveStatus_ok hok).2]
      exact hm
    | burn t =>
      exact absurd rfl (hnb t)
    | pause =>
      rw [step] at hok
      rw [pause_ok hok]
      exact hm
    | unpause =>
      rw [step] at hok
      rw [unpause_ok hok]
      exact hm
    | updateRelayer r =>
      rw [step] at hok
      rw [(updateRelayer_ok hok).2]
      exact hm
    | updateCampaignBaseURI cid uri =>
      rw [step] at hok
      rw [updateCampaignBaseURI_ok hok]
      exact hm

/-- **C4.** In every reachable state every campaign's `mintedCount` is at
most its `maxMints`; and once `mintedCount = maxMints`, an otherwise-valid
claim attempt (all earlier checks passing) fails with `MintLimitReached` —
before the proof is even examined — and, being a revert, changes nothing. -/
theorem c4_capacity_invariant (k : List Nat → Nat) (s : ContractState)
    (h : Reachable k s) (campaignId : Nat) :
    s.campaignMintCount campaignId ≤ (s.campaigns campaignId).maxMints ∧
    (∀ sender now attendee merkleProof,
      s.paused = false → attendee ≠ 0 → sender = s.relayer →
      List.length merkleProof ≤ MAX_PROOF_DEPTH →
      (s.campaigns campaignId).merkleRoot ≠ 0 →
      (s.campaigns campaignId).isActive = true →
      (s.campaigns campaignId).startTime ≤ now → now ≤ (s.campaigns campaignId).endTime →
      s.hasMintedInCampaign campaignId attendee = false →
      s.campaignMintCount campaignId = (s.campaigns campaignId).maxMints →
      mint k s sender now attendee campaignId merkleProof = .error .MintLimitReached) := by
  refine ⟨(reachable_inv h).1 campaignId, ?_⟩
  intro sender now attendee merkleProof hp ha hr hlen hroot hact hst hen hm hcnt
  have hw : ¬(now < (s.campaigns campaignId).startTime ∨
      (s.campaigns campaignId).endTime < now) := by omega
  have hge : (s.campaigns campaignId).maxMints ≤ s.campaignMintCount campaignId := by omega
  simp [mint, hp, ha, hr, not_lt.mpr hlen, hroot, hact, hw, hm, hge]

/-- **C4 witness.** In the reachable state `capState` (campaign 1 created
with capacity 0 and activated), the very first otherwise-valid claim fails
with `MintLimitReached`. -/
theorem c4_capacity_invariant_witness :
    mint lenHash capState 7 5 3 1 [] = .error .MintLimitReached :=
  (c4_capacity_invariant lenHash capState capState_reachable 1).2 7 5 3 []
    rfl (by decide) rfl (by decide) (by decide) rfl (by decide) (by decide) rfl rfl

/-- **C6.** In every reachable state, once `now ≥ startTime` for an existing
campaign (non-zero root), its scheduling fields are immutable:
`updateCampaignBeforeStart` by the owner is rejected with
`CannotModifyStartedCampaign`, and no successful operation executed at such
a time changes the campaign's root, start time or end time. -/
theorem c6_started_campaign_immutable (k : List Nat → Nat) (s : ContractState)
    (h : Reachable k s) (campaignId sender now : Nat)
    (hex : (s.campaigns campaignId).merkleRoot ≠ 0)
    (hst : (s.campaigns campaignId).startTime ≤ now) :
    (sender = s.owner → ∀ r st en,
      updateCampaignBeforeStart s sender now campaignId r st en =
        .error .CannotModifyStartedCampaign) ∧
    (∀ op s', step k s sender now op = .ok s' →
      (s'.campaigns campaignId).merkleRoot = (s.campaigns campaignId).merkleRoot ∧
      (s'.campaigns campaignId).startTime = (s.campaigns campaignId).startTime ∧
      (s'.campaigns campaignId).endTime = (s.campaigns campaignId).endTime) := by
  constructor
  · intro hs r st en
    unfold updateCampaignBeforeStart
    rw [if_neg (by simp [hs]), if_neg hex, if_pos hst]
  · intro op s' hok
    cases op with
    | mint a cid pf =>
      rw [step, mint_ok_iff] at hok
      rw [hok.2.2.2.2.2.2.2.2.2.2.2.2]
      exact ⟨by trivial, by trivial, by trivial⟩
    | createCampaign r st en mx uri =>
      rw [step] at hok
      rw [(createCampaign_ok hok).2]
      have hlt : campaignId < s.nextCampaignId := by
        by_contra hge
        exact hex (by rw [((reachable_inv h).2 campaignId (by omega)).1]; rfl)
      have hne : campaignId ≠ s.nextCampaignId := by omega
      simp only [upd_ne _ _ _ hne]
      exact ⟨by trivial, by trivial, by trivial⟩
    | updateCampaignBeforeStart cid r st en =>
      rw [step] at hok
      obtain ⟨-, hlt, hs'⟩ := updateCampaignBeforeStart_ok hok
      rw [hs']
      have hne : campaignId ≠ cid := by
        intro he
        rw [← he] at hlt
        omega
      simp only [upd_ne _ _ _ hne]
      exact ⟨by trivial, by trivial, by trivial⟩
    | deleteCampaign cid =>
      rw [step] at hok
      obtain ⟨-, hlt, -, hs'⟩ := deleteCampaign_ok hok
      rw [hs']
      have hne : campaignId ≠ cid := by
        intro he
        rw [← he] at hlt
        omega
      simp only [upd_ne _ _ _ hne]
      exact ⟨by trivial, by trivial, by trivial⟩
    | setCampaignActiveStatus cid b =>
      rw [step] at hok
      rw [(setCampaignActiveStatus_ok hok).2]
      by_cases hc : campaignId = cid
      · rw [hc]
        simp only [upd_same]
        exact ⟨by trivial, by trivial, by trivial⟩
      · simp only [upd_ne _ _ _ hc]
        exact ⟨by trivial, by trivial, by trivial⟩
    | burn t =>
      rw [step] at hok
      rw [(burn_ok hok).2.2.2.2.2.2.1]
      exact ⟨by trivial, by trivial, by trivial⟩
    | pause =>
      rw [step] at hok
      rw [pause_ok hok]
      exact ⟨by trivial, by trivial, by trivial⟩
    | unpause =>
      rw [step] at hok
      rw [unpause_ok hok]
      exact ⟨by trivial, by trivial, by trivial⟩
    | updateRelayer r =>
      rw [step] at hok
      rw [(updateRelayer_ok hok).2]
      exact ⟨by trivial, by trivial, by trivial⟩
    | updateCampaignBaseURI cid uri =>
      rw [step] at hok
      rw [updateCampaignBaseURI_ok hok]
      exact ⟨by trivial, by trivial, by trivial⟩

/-- **C6 witness.** In the reachable state `mintedState`, campaign 1
(started at time 5) cannot be updated at time 6. -/
theorem c6_started_campaign_immutable_witness :
    updateCampaignBeforeStart mintedState 9 6 1 99 7 8 =
      .error .CannotModifyStartedCampaign :=
  (c6_started_campaign_immutable lenHash mintedState mintedState_reachable 1 9 6
    (by decide) (by decide)).1 rfl 99 7 8

/-- **C8.** An administrative `burn` of an existing credential (owned token
with a recorded campaign) clears the (campaign, owner) claimed flag,
decrements that campaign's mint count, and destroys the credential (owner
and campaign association zeroed); afterwards a claim for that campaign by
any eligible identity — the revoked one (its flag was just cleared) or any
other unclaimed one — succeeds in the freed capacity slot whenever the
campaign checks and its Merkle proof pass. -/
theorem c8_revoke_frees_capacity (k : List Nat → Nat) (s : ContractState)
    (sender tokenId : Nat) (hs : sender = s.owner)
    (hown : s.ownerOf tokenId ≠ 0) (hcid : s.tokenToCampaignId tokenId ≠ 0) :
    ∃ s', burn s sender tokenId = .ok s' ∧
      s'.hasMintedInCampaign (s.tokenToCampaignId tokenId) (s.ownerOf tokenId) = false ∧
      s'.campaignMintCount (s.tokenToCampaignId tokenId) =
        s.campaignMintCount (s.tokenToCampaignId tokenId) - 1 ∧
      s'.ownerOf tokenId = 0 ∧ s'.tokenToCampaignId tokenId = 0 ∧
      (∀ sender2 now attendee merkleProof,
        s.paused = false → attendee ≠ 0 → sender2 = s.relayer →
        List.length merkleProof ≤ MAX_PROOF_DEPTH →
        (attendee = s.ownerOf tokenId ∨
          s.hasMintedInCampaign (s.tokenToCampaignId tokenId) attendee = false) →
        (s.campaigns (s.tokenToCampaignId tokenId)).merkleRoot ≠ 0 →
        (s.campaigns (s.tokenToCampaignId tokenId)).isActive = true →
        (s.campaigns (s.tokenToCampaignId tokenId)).startTime ≤ now →
        now ≤ (s.campaigns (s.tokenToCampaignId tokenId)).endTime →
        s.campaignMintCount (s.tokenToCampaignId tokenId) ≤
          (s.campaigns (s.tokenToCampaignId tokenId)).maxMints →
        0 < (s.campaigns (s.tokenToCampaignId tokenId)).maxMints →
        merkleVerify k merkleProof (s.campaigns (s.tokenToCampaignId tokenId)).merkleRoot
          (mintLeaf k attendee) = true →
        s.ownerOf s.nextTokenId = 0 →
        ∃ s'', mint k s' sender2 now attendee (s.tokenToCampaignId tokenId) merkleProof
          = .ok s'') := by
  have hb : burn s sender tokenId = .ok (burnSuccessState s tokenId) := by
    unfold burn
    rw [if_neg (by simp [hs]), if_neg (by simp [hown]), if_neg (by simp [hcid])]
  obtain ⟨-, -, -, -, hrel, hpau, hcamps, -, hntok, -, hflag, hflag2, hcnt, -, howz, how2, htok,
    -⟩ := burn_ok hb
  refine ⟨burnSuccessState s tokenId, hb, hflag, hcnt, howz, htok, ?_⟩
  intro sender2 now attendee merkleProof hp ha hr hlen helig hroot hact hstt hen hcap hmx hver
    hfree
  refine ⟨mintSuccessState (burnSuccessState s tokenId) attendee (s.tokenToCampaignId tokenId),
    ?_⟩
  rw [mint_ok_iff]
  have hcampsEq : (burnSuccessState s tokenId).campaigns = s.campaigns := hcamps
  refine ⟨by rw [hpau]; exact hp, ha, by rw [hrel]; exact hr, hlen, ?_, ?_, ?_, ?_, ?_, ?_, ?_,
    ?_, rfl⟩
  · rw [hcampsEq]
    exact hroot
  · rw [hcampsEq]
    exact hact
  · rw [hcampsEq]
    exact hstt
  · rw [hcampsEq]
    exact hen
  · rcases helig with he | he
    · rw [he]
      exact hflag
    · by_cases hao : attendee = s.ownerOf tokenId
      · rw [hao]
        exact hflag
      · rw [hflag2 _ _ (by simp [hao])]
        exact he
  · rw [hcampsEq, hcnt]
    omega
  · rw [hcampsEq]
    exact hver
  · rw [hntok]
    by_cases ht : s.nextTokenId = tokenId
    · rw [ht]
      exact howz
    · rw [how2 _ ht]
      exact hfree

/-- **C8 witness.** Burning token 1 of `mintedState` (owned by identity 3 in
campaign 1) frees the slot. -/
theorem c8_revoke_frees_capacity_witness :
    ∃ s', burn mintedState 9 1 = .ok s' ∧
      s'.hasMintedInCampaign 1 3 = false :=
  (c8_revoke_frees_capacity lenHash mintedState 9 1 rfl (by decide) (by decide)).imp
    (fun s' hconj => ⟨hconj.1, hconj.2.1⟩)

/-- **C9.** For every existing credential, `tokenURI` returns exactly the
owning campaign's metadata locator concatenated with the lowercase hex
rendering of the owner's address and `".json"`; the result depends only on
the owner identity and the campaign locator — two credentials (any ids, any
states, any mint order) with the same owner and the same campaign locator
resolve to the same URI. -/
theorem c9_token_uri_owner_derived (s1 s2 : ContractState) (t1 t2 : Nat)
    (h1 : s1.ownerOf t1 ≠ 0)
    (hb1 : s1.campaignBaseURI (s1.tokenToCampaignId t1) ≠ "") :
    tokenURI s1 t1 = .ok (s1.campaignBaseURI (s1.tokenToCampaignId t1) ++
      toAsciiString (s1.ownerOf t1) ++ ".json") ∧
    (s2.ownerOf t2 = s1.ownerOf t1 →
      s2.campaignBaseURI (s2.tokenToCampaignId t2) =
        s1.campaignBaseURI (s1.tokenToCampaignId t1) →
      tokenURI s2 t2 = tokenURI s1 t1) := by
  have e1 : tokenURI s1 t1 = .ok (s1.campaignBaseURI (s1.tokenToCampaignId t1) ++
      toAsciiString (s1.ownerOf t1) ++ ".json") := by
    unfold tokenURI
    rw [if_neg h1, if_neg hb1]
  refine ⟨e1, fun ho hbu => ?_⟩
  rw [e1]
  unfold tokenURI
  rw [ho, hbu, if_neg h1, if_neg hb1]

/-- **C9 witness.** Token 1 of `mintedState` (owner 3, campaign locator
`"u"`) resolves to the locator plus the owner's lowercase hex address plus
`".json"`. -/
theorem c9_token_uri_owner_derived_witness :
    tokenURI mintedState 1 = .ok "u0x0000000000000000000000000000000000000003.json" :=
  (c9_token_uri_owner_derived mintedState mintedState 1 1 (by decide) (by decide)).1

end EventCert
